import Mathlib

/-!
Verification of the WebSocket core (Go package `ws`).

Bytes are modelled as `Nat` (with `% 256` wherever Go performs a `byte`
conversion), byte streams as `List Nat`, and `uint32`/`uint64` values as `Nat`
with explicit `% 2^32` / bounds where wrap-around matters.  Fallible reads
return `Option`/`Except`.  Each definition is translated from the
corresponding Go function and keeps its name.
-/

/-- Models `encoding/binary` BigEndian.Uint16: `uint16(b[1]) | uint16(b[0])<<8`. -/
def beUint16 (b : List Nat) : Nat :=
  b.getD 1 0 ||| b.getD 0 0 <<< 8

/-- Models BigEndian.Uint64: `uint64(b[7]) | uint64(b[6])<<8 | ... | uint64(b[0])<<56`. -/
def beUint64 (b : List Nat) : Nat :=
  b.getD 7 0 ||| b.getD 6 0 <<< 8 ||| b.getD 5 0 <<< 16 ||| b.getD 4 0 <<< 24 |||
    b.getD 3 0 <<< 32 ||| b.getD 2 0 <<< 40 ||| b.getD 1 0 <<< 48 ||| b.getD 0 0 <<< 56

/-- Models BigEndian.PutUint16: `buf[0] = byte(v >> 8); buf[1] = byte(v)`. -/
def bePutUint16 (v : Nat) : List Nat :=
  [v >>> 8 % 256, v % 256]

/-- Models BigEndian.PutUint64: `buf[i] = byte(v >> (8*(7-i)))`. -/
def bePutUint64 (v : Nat) : List Nat :=
  [v >>> 56 % 256, v >>> 48 % 256, v >>> 40 % 256, v >>> 32 % 256,
    v >>> 24 % 256, v >>> 16 % 256, v >>> 8 % 256, v % 256]

/-- Disjoint bitwise or is addition: `x ||| a <<< k = x + 2^k * a` when `x < 2^k`. -/
theorem lor_shl {x : Nat} (a k : Nat) (hx : x < 2 ^ k) : x ||| a <<< k = x + 2 ^ k * a := by
  rw [Nat.shiftLeft_eq, Nat.lor_comm, Nat.mul_comm a (2 ^ k),
    ← Nat.mul_add_lt_is_or hx a, Nat.add_comm]

theorem beUint16_bePutUint16 (v : Nat) (h : v < 2 ^ 16) : beUint16 (bePutUint16 v) = v := by
  simp only [beUint16, bePutUint16, List.getD_cons_zero, List.getD_cons_succ,
    Nat.shiftRight_eq_div_pow]
  rw [lor_shl _ 8 (by omega)]
  have h16 : (2 : Nat) ^ 16 = 65536 := by norm_num
  have h8 : (2 : Nat) ^ 8 = 256 := by norm_num
  rw [h16] at h
  rw [h8]
  omega

theorem beUint64_bePutUint64 (v : Nat) (h : v < 2 ^ 64) : beUint64 (bePutUint64 v) = v := by
  simp only [beUint64, bePutUint64, List.getD_cons_zero, List.getD_cons_succ,
    Nat.shiftRight_eq_div_pow]
  have h8 : (2 : Nat) ^ 8 = 256 := by norm_num
  have h16 : (2 : Nat) ^ 16 = 65536 := by norm_num
  have h24 : (2 : Nat) ^ 24 = 16777216 := by norm_num
  have h32 : (2 : Nat) ^ 32 = 4294967296 := by norm_num
  have h40 : (2 : Nat) ^ 40 = 1099511627776 := by norm_num
  have h48 : (2 : Nat) ^ 48 = 281474976710656 := by norm_num
  have h56 : (2 : Nat) ^ 56 = 72057594037927936 := by norm_num
  have h64 : (2 : Nat) ^ 64 = 18446744073709551616 := by norm_num
  rw [lor_shl _ 8 (by omega)]
  rw [lor_shl _ 16 (by rw [h16, h8]; omega)]
  rw [lor_shl _ 24 (by rw [h24, h16, h8]; omega)]
  rw [lor_shl _ 32 (by rw [h32, h24, h16, h8]; omega)]
  rw [lor_shl _ 40 (by rw [h40, h32, h24, h16, h8]; omega)]
  rw [lor_shl _ 48 (by rw [h48, h40, h32, h24, h16, h8]; omega)]
  rw [lor_shl _ 56 (by rw [h56, h48, h40, h32, h24, h16, h8]; omega)]
  rw [h64] at h
  rw [h8, h16, h24, h32, h40, h48, h56]
  omega

/-- Frame header record, translated from `type header struct` (RFC 6455 sec. 5.2).
`maskKey` models the Go `[4]byte` as a list (zero value: four zero bytes). -/
structure header where
  fin : Bool
  rsv1 : Bool
  rsv2 : Bool
  rsv3 : Bool
  opcode : Nat
  mask : Bool
  length : Nat
  maskKey : List Nat
deriving DecidableEq

/-- Standard frame header opcodes. -/
def opContinue : Nat := 0

def opText : Nat := 1

def opBinary : Nat := 2

def opClose : Nat := 8

def opPing : Nat := 9

def opPong : Nat := 10

/-- Translated from `func boolToByte(v bool) byte`. -/
def boolToByte (v : Bool) : Nat :=
  if v then 1 else 0

/-- Models `io.ReadFull` into an `n`-byte buffer from a byte stream:
the first `n` bytes plus the remainder, or failure when fewer are available. -/
def takeN (n : Nat) (s : List Nat) : Option (List Nat × List Nat) :=
  if n ≤ s.length then some (s.take n, s.drop n) else none

/-- Translated from `func readHeader(r io.Reader) (header, error)`:
two header bytes, then the 16- or 64-bit extended length when the 7-bit
prefix is 126 or 127, then the 4-byte mask key when the mask bit is set. -/
def readHeader (s : List Nat) : Option (header × List Nat) :=
  match takeN 2 s with
  | none => none
  | some (b, s1) =>
    let b0 := b.getD 0 0
    let b1 := b.getD 1 0
    let l := b1 &&& ((1 <<< 7) - 1)
    let step2 : Option (Nat × List Nat) :=
      if l = 126 then
        match takeN 2 s1 with
        | none => none
        | some (c, s2) => some (beUint16 c, s2)
      else if l = 127 then
        match takeN 8 s1 with
        | none => none
        | some (c, s2) => some (beUint64 c, s2)
      else some (l, s1)
    match step2 with
    | none => none
    | some (len, s2) =>
      let f : header :=
        { fin := b0 &&& (1 <<< 7) != 0
          rsv1 := b0 &&& (1 <<< 6) != 0
          rsv2 := b0 &&& (1 <<< 5) != 0
          rsv3 := b0 &&& (1 <<< 4) != 0
          opcode := b0 &&& ((1 <<< 4) - 1)
          mask := b1 &&& (1 <<< 7) != 0
          length := len
          maskKey := List.replicate 4 0 }
      if f.mask then
        match takeN 4 s2 with
        | none => none
        | some (k, s3) => some ({ f with maskKey := k }, s3)
      else some (f, s2)

/-- Translated from `func (h header) write(w *bufio.Writer) error`: the bytes
the header emits (buffered writes are modelled as infallible byte appends;
`byte(...)` and `uint16(...)` conversions appear as `% 256` / `% 65536`). -/
def header.write (h : header) : List Nat :=
  let b0 := boolToByte h.fin <<< 7 ||| boolToByte h.rsv1 <<< 6 ||| boolToByte h.rsv2 <<< 5 |||
    boolToByte h.rsv3 <<< 4 ||| h.opcode
  let l : Nat :=
    if h.length ≤ 125 then h.length % 256
    else if h.length ≤ (1 <<< 16) - 1 then 126
    else 127
  let b1 := boolToByte h.mask <<< 7 ||| l
  [b0, b1] ++
    (if l = 126 then bePutUint16 (h.length % 65536)
      else if l = 127 then bePutUint64 h.length
      else []) ++
    (if h.mask then h.maskKey else [])

/-- Byte-0 decode: each flag bit and the opcode are recovered from the packed byte. -/
theorem decode_byte0 :
    ∀ (f r1 r2 r3 : Bool) (op : Fin 16),
      ((boolToByte f <<< 7 ||| boolToByte r1 <<< 6 ||| boolToByte r2 <<< 5 |||
          boolToByte r3 <<< 4 ||| op.val) &&& (1 <<< 7) != 0) = f ∧
      ((boolToByte f <<< 7 ||| boolToByte r1 <<< 6 ||| boolToByte r2 <<< 5 |||
          boolToByte r3 <<< 4 ||| op.val) &&& (1 <<< 6) != 0) = r1 ∧
      ((boolToByte f <<< 7 ||| boolToByte r1 <<< 6 ||| boolToByte r2 <<< 5 |||
          boolToByte r3 <<< 4 ||| op.val) &&& (1 <<< 5) != 0) = r2 ∧
      ((boolToByte f <<< 7 ||| boolToByte r1 <<< 6 ||| boolToByte r2 <<< 5 |||
          boolToByte r3 <<< 4 ||| op.val) &&& (1 <<< 4) != 0) = r3 ∧
      ((boolToByte f <<< 7 ||| boolToByte r1 <<< 6 ||| boolToByte r2 <<< 5 |||
          boolToByte r3 <<< 4 ||| op.val) &&& ((1 <<< 4) - 1)) = op.val := by
  decide

/-- Byte-1 decode: the mask bit and the 7-bit length prefix are recovered. -/
theorem decode_byte1 :
    ∀ (m : Bool) (l : Fin 128),
      ((boolToByte m <<< 7 ||| l.val) &&& (1 <<< 7) != 0) = m ∧
      ((boolToByte m <<< 7 ||| l.val) &&& ((1 <<< 7) - 1)) = l.val := by
  decide

theorem takeN_append (l r : List Nat) (n : Nat) (h : l.length = n) :
    takeN n (l ++ r) = some (l, r) := by
  subst h
  simp [takeN, List.take_left, List.drop_left]

theorem takeN_exact (l : List Nat) (n : Nat) (h : l.length = n) :
    takeN n l = some (l, []) := by
  have := takeN_append l [] n h
  simpa using this

theorem takeN_two (x y : Nat) (r : List Nat) : takeN 2 (x :: y :: r) = some ([x, y], r) := by
  simp [takeN]

theorem rt_short_false (f r1 r2 r3 : Bool) (op len : Nat) (hop : op < 16) (h125 : len ≤ 125) :
    readHeader (header.write ⟨f, r1, r2, r3, op, false, len, List.replicate 4 0⟩) =
      some (⟨f, r1, r2, r3, op, false, len, List.replicate 4 0⟩, []) := by
  obtain ⟨hf, hr1, hr2, hr3, hop4⟩ := decode_byte0 f r1 r2 r3 ⟨op, hop⟩
  simp only [Fin.val_mk] at hf hr1 hr2 hr3 hop4
  obtain ⟨hm, hl⟩ := decode_byte1 false ⟨len, by omega⟩
  simp only [Fin.val_mk] at hm hl
  have hmod : len % 256 = len := Nat.mod_eq_of_lt (by omega)
  have h126 : ¬ (len = 126) := by omega
  have h127 : ¬ (len = 127) := by omega
  have hw : header.write ⟨f, r1, r2, r3, op, false, len, List.replicate 4 0⟩ =
      [boolToByte f <<< 7 ||| boolToByte r1 <<< 6 ||| boolToByte r2 <<< 5 |||
        boolToByte r3 <<< 4 ||| op, boolToByte false <<< 7 ||| len] := by
    simp [header.write, h125, hmod, h126, h127]
  rw [hw]
  simp only [readHeader]
  rw [takeN_two]
  simp only [List.getD_cons_zero, List.getD_cons_succ]
  rw [hl, if_neg h126, if_neg h127]
  simp only
  rw [hf, hr1, hr2, hr3, hop4, hm]
  simp only [Bool.false_eq_true, if_false]

theorem rt_short_true (f r1 r2 r3 : Bool) (op len : Nat) (mk : List Nat)
    (hop : op < 16) (h125 : len ≤ 125) (hmk : mk.length = 4) :
    readHeader (header.write ⟨f, r1, r2, r3, op, true, len, mk⟩) =
      some (⟨f, r1, r2, r3, op, true, len, mk⟩, []) := by
  obtain ⟨hf, hr1, hr2, hr3, hop4⟩ := decode_byte0 f r1 r2 r3 ⟨op, hop⟩
  simp only [Fin.val_mk] at hf hr1 hr2 hr3 hop4
  obtain ⟨hm, hl⟩ := decode_byte1 true ⟨len, by omega⟩
  simp only [Fin.val_mk] at hm hl
  have hmod : len % 256 = len := Nat.mod_eq_of_lt (by omega)
  have h126 : ¬ (len = 126) := by omega
  have h127 : ¬ (len = 127) := by omega
  have hw : header.write ⟨f, r1, r2, r3, op, true, len, mk⟩ =
      (boolToByte f <<< 7 ||| boolToByte r1 <<< 6 ||| boolToByte r2 <<< 5 |||
        boolToByte r3 <<< 4 ||| op) :: (boolToByte true <<< 7 ||| len) :: mk := by
    simp [header.write, h125, hmod, h126, h127]
  rw [hw]
  simp only [readHeader]
  rw [takeN_two]
  simp only [List.getD_cons_zero, List.getD_cons_succ]
  rw [hl, if_neg h126, if_neg h127]
  simp only
  rw [hf, hr1, hr2, hr3, hop4, hm]
  simp only [if_true]
  rw [takeN_exact mk 4 hmk]

theorem rt_mid_false (f r1 r2 r3 : Bool) (op len : Nat)
    (hop : op < 16) (h125 : ¬ len ≤ 125) (h16 : len ≤ 65535) :
    readHeader (header.write ⟨f, r1, r2, r3, op, false, len, List.replicate 4 0⟩) =
      some (⟨f, r1, r2, r3, op, false, len, List.replicate 4 0⟩, []) := by
  obtain ⟨hf, hr1, hr2, hr3, hop4⟩ := decode_byte0 f r1 r2 r3 ⟨op, hop⟩
  simp only [Fin.val_mk] at hf hr1 hr2 hr3 hop4
  obtain ⟨hm, hl⟩ := decode_byte1 false ⟨126, by norm_num⟩
  simp only [Fin.val_mk] at hm hl
  have hshift : (1 <<< 16) - 1 = 65535 := by norm_num [Nat.shiftLeft_eq]
  have hmod16 : len % 65536 = len := Nat.mod_eq_of_lt (by omega)
  have hw : header.write ⟨f, r1, r2, r3, op, false, len, List.replicate 4 0⟩ =
      (boolToByte f <<< 7 ||| boolToByte r1 <<< 6 ||| boolToByte r2 <<< 5 |||
        boolToByte r3 <<< 4 ||| op) :: (boolToByte false <<< 7 ||| 126) ::
        (bePutUint16 len ++ []) := by
    simp [header.write, h125, hshift, h16, hmod16]
  rw [hw]
  simp only [readHeader]
  rw [takeN_two]
  simp only [List.getD_cons_zero, List.getD_cons_succ]
  rw [hl, if_pos rfl]
  rw [takeN_append (bePutUint16 len) [] 2 (by simp [bePutUint16])]
  simp only
  rw [beUint16_bePutUint16 len (by omega)]
  rw [hf, hr1, hr2, hr3, hop4, hm]
  simp only [Bool.false_eq_true, if_false]

theorem rt_mid_true (f r1 r2 r3 : Bool) (op len : Nat) (mk : List Nat)
    (hop : op < 16) (h125 : ¬ len ≤ 125) (h16 : len ≤ 65535) (hmk : mk.length = 4) :
    readHeader (header.write ⟨f, r1, r2, r3, op, true, len, mk⟩) =
      some (⟨f, r1, r2, r3, op, true, len, mk⟩, []) := by
  obtain ⟨hf, hr1, hr2, hr3, hop4⟩ := decode_byte0 f r1 r2 r3 ⟨op, hop⟩
  simp only [Fin.val_mk] at hf hr1 hr2 hr3 hop4
  obtain ⟨hm, hl⟩ := decode_byte1 true ⟨126, by norm_num⟩
  simp only [Fin.val_mk] at hm hl
  have hshift : (1 <<< 16) - 1 = 65535 := by norm_num [Nat.shiftLeft_eq]
  have hmod16 : len % 65536 = len := Nat.mod_eq_of_lt (by omega)
  have hw : header.write ⟨f, r1, r2, r3, op, true, len, mk⟩ =
      (boolToByte f <<< 7 ||| boolToByte r1 <<< 6 ||| boolToByte r2 <<< 5 |||
        boolToByte r3 <<< 4 ||| op) :: (boolToByte true <<< 7 ||| 126) ::
        (bePutUint16 len ++ mk) := by
    simp [header.write, h125, hshift, h16, hmod16]
  rw [hw]
  simp only [readHeader]
  rw [takeN_two]
  simp only [List.getD_cons_zero, List.getD_cons_succ]
  rw [hl, if_pos rfl]
  rw [takeN_append (bePutUint16 len) mk 2 (by simp [bePutUint16])]
  simp only
  rw [beUint16_bePutUint16 len (by omega)]
  rw [hf, hr1, hr2, hr3, hop4, hm]
  simp only [if_true]
  rw [takeN_exact mk 4 hmk]

theorem rt_long_false (f r1 r2 r3 : Bool) (op len : Nat)
    (hop : op < 16) (h125 : ¬ len ≤ 125) (h16 : ¬ len ≤ 65535) (hlen : len < 2 ^ 64) :
    readHeader (header.write ⟨f, r1, r2, r3, op, false, len, List.replicate 4 0⟩) =
      some (⟨f, r1, r2, r3, op, false, len, List.replicate 4 0⟩, []) := by
  obtain ⟨hf, hr1, hr2, hr3, hop4⟩ := decode_byte0 f r1 r2 r3 ⟨op, hop⟩
  simp only [Fin.val_mk] at hf hr1 hr2 hr3 hop4
  obtain ⟨hm, hl⟩ := decode_byte1 false ⟨127, by norm_num⟩
  simp only [Fin.val_mk] at hm hl
  have hshift : (1 <<< 16) - 1 = 65535 := by norm_num [Nat.shiftLeft_eq]
  have hw : header.write ⟨f, r1, r2, r3, op, false, len, List.replicate 4 0⟩ =
      (boolToByte f <<< 7 ||| boolToByte r1 <<< 6 ||| boolToByte r2 <<< 5 |||
        boolToByte r3 <<< 4 ||| op) :: (boolToByte false <<< 7 ||| 127) ::
        (bePutUint64 len ++ []) := by
    simp [header.write, h125, hshift, h16]
  rw [hw]
  simp only [readHeader]
  rw [takeN_two]
  simp only [List.getD_cons_zero, List.getD_cons_succ]
  rw [hl, if_neg (by norm_num), if_pos rfl]
  rw [takeN_append (bePutUint64 len) [] 8 (by simp [bePutUint64])]
  simp only
  rw [beUint64_bePutUint64 len hlen]
  rw [hf, hr1, hr2, hr3, hop4, hm]
  simp only [Bool.false_eq_true, if_false]

theorem rt_long_true (f r1 r2 r3 : Bool) (op len : Nat) (mk : List Nat)
    (hop : op < 16) (h125 : ¬ len ≤ 125) (h16 : ¬ len ≤ 65535) (hlen : len < 2 ^ 64)
    (hmk : mk.length = 4) :
    readHeader (header.write ⟨f, r1, r2, r3, op, true, len, mk⟩) =
      some (⟨f, r1, r2, r3, op, true, len, mk⟩, []) := by
  obtain ⟨hf, hr1, hr2, hr3, hop4⟩ := decode_byte0 f r1 r2 r3 ⟨op, hop⟩
  simp only [Fin.val_mk] at hf hr1 hr2 hr3 hop4
  obtain ⟨hm, hl⟩ := decode_byte1 true ⟨127, by norm_num⟩
  simp only [Fin.val_mk] at hm hl
  have hshift : (1 <<< 16) - 1 = 65535 := by norm_num [Nat.shiftLeft_eq]
  have hw : header.write ⟨f, r1, r2, r3, op, true, len, mk⟩ =
      (boolToByte f <<< 7 ||| boolToByte r1 <<< 6 ||| boolToByte r2 <<< 5 |||
        boolToByte r3 <<< 4 ||| op) :: (boolToByte true <<< 7 ||| 127) ::
        (bePutUint64 len ++ mk) := by
    simp [header.write, h125, hshift, h16]
  rw [hw]
  simp only [readHeader]
  rw [takeN_two]
  simp only [List.getD_cons_zero, List.getD_cons_succ]
  rw [hl, if_neg (by norm_num), if_pos rfl]
  rw [takeN_append (bePutUint64 len) mk 8 (by simp [bePutUint64])]
  simp only
  rw [beUint64_bePutUint64 len hlen]
  rw [hf, hr1, hr2, hr3, hop4, hm]
  simp only [if_true]
  rw [takeN_exact mk 4 hmk]

/-- Claim C1: for every frame header (fin, rsv1, rsv2, rsv3, opcode below 16,
mask flag, payload length below 2^64, and, when masked, a 4-byte mask key —
when unmasked the key is the Go zero value), writing the header with
`header.write` and then decoding the resulting bytes with `readHeader` yields
a header equal to the original in every field, for all three length forms
(length at most 125, length fitting in 16 bits, larger 64-bit lengths) and
for both the masked and the unmasked case. -/
theorem readHeader_header_write_roundtrip (h : header)
    (hop : h.opcode < 16) (hlen : h.length < 2 ^ 64)
    (hmk : if h.mask then h.maskKey.length = 4 else h.maskKey = List.replicate 4 0) :
    readHeader h.write = some (h, []) := by
  obtain ⟨f, r1, r2, r3, op, m, len, mk⟩ := h
  simp only at hop hlen hmk
  cases m with
  | false =>
    replace hmk : mk = List.replicate 4 0 := by simpa using hmk
    subst hmk
    by_cases h125 : len ≤ 125
    · exact rt_short_false f r1 r2 r3 op len hop h125
    · by_cases h16 : len ≤ 65535
      · exact rt_mid_false f r1 r2 r3 op len hop h125 h16
      · exact rt_long_false f r1 r2 r3 op len hop h125 h16 hlen
  | true =>
    replace hmk : mk.length = 4 := by simpa using hmk
    by_cases h125 : len ≤ 125
    · exact rt_short_true f r1 r2 r3 op len mk hop h125 hmk
    · by_cases h16 : len ≤ 65535
      · exact rt_mid_true f r1 r2 r3 op len mk hop h125 h16 hmk
      · exact rt_long_true f r1 r2 r3 op len mk hop h125 h16 hlen hmk

/-- Claim C1 witness: a concrete masked header with a 16-bit length form. -/
theorem readHeader_header_write_roundtrip_witness :
    readHeader (header.write ⟨true, false, false, false, 1, true, 300, [1, 2, 3, 4]⟩) =
      some (⟨true, false, false, false, 1, true, 300, [1, 2, 3, 4]⟩, []) :=
  readHeader_header_write_roundtrip ⟨true, false, false, false, 1, true, 300, [1, 2, 3, 4]⟩
    (by norm_num) (by norm_num) (by norm_num)

/-- The Go zero value of `header`. -/
def header.zero : header :=
  ⟨false, false, false, false, 0, false, 0, List.replicate 4 0⟩

/-- Error values of the connection code.  Each constructor models one Go
error: `ioErr` an underlying read/write/flush failure, `eofErr` is `io.EOF`,
`alreadyClosed` is `ErrAlreadyClosed`, `closedByPeer raw` is
`ErrClosed{ErrCloseMessage{raw}}`, and the rest are the `errors.New` /
`fmt.Errorf` values appearing in the source. -/
inductive WsErr where
  | ioErr
  | eofErr
  | alreadyClosed
  | oversizeWrite
  | incompleteFrame
  | prevNotRead
  | continueNoStart
  | oversizedPong
  | pongReadFail
  | pongParseFail
  | pongMismatch
  | giganticPing
  | oversizedClose
  | pingExceedsMax
  | unknownOpcode (op : Nat)
  | expectedContinuation (op : Nat)
  | closedByPeer (raw : List Nat)
deriving DecidableEq

/-- Connection state, translated from `type Conn struct`.  The buffered
reader/writer pair `brw` is modelled by the unread input bytes `inp` and the
written output bytes `out`; `wErr` makes the underlying writer fail (an I/O
error); `lockHeld` is the state of `writeLock`; `closed` says whether the
`closed` channel has been closed; `connClosed` whether the underlying stream
was closed.  The remaining fields are the Go fields of the same name
(`closeReason` holds the raw `ErrCloseMessage` payload when set). -/
structure Conn where
  inp : List Nat
  out : List Nat
  wErr : Bool
  lockHeld : Bool
  writeLength : Nat
  streamWrite : Bool
  readLength : Nat
  readFrame : header
  notFirstRead : Bool
  lastPong : Nat
  closeSent : Bool
  closeReason : Option (List Nat)
  closed : Bool
  connClosed : Bool
deriving DecidableEq

/-- A buffered write: fails with the I/O error when the writer is broken. -/
def bwrite (bs : List Nat) (c : Conn) : (Except WsErr Unit) × Conn :=
  if c.wErr then (Except.error WsErr.ioErr, c)
  else (Except.ok (), { c with out := c.out ++ bs })

/-- A buffered flush: fails with the I/O error when the writer is broken. -/
def bflush (c : Conn) : (Except WsErr Unit) × Conn :=
  if c.wErr then (Except.error WsErr.ioErr, c) else (Except.ok (), c)

/-- The deferred error translation appearing in `startFrame`, `Write` and
`End`: a non-nil error is replaced by `ErrAlreadyClosed` when the `closed`
channel has been closed. -/
def remapClosed (closed : Bool) (e : WsErr) : WsErr :=
  if closed then WsErr.alreadyClosed else e

/-- Translated from `tryClose` (idempotent close of the `closed` channel). -/
def tryClose (c : Conn) : Conn :=
  { c with closed := true }

/-- Translated from `func (c *Conn) forceClose() error`: fires the
close notifier and closes the underlying byte stream. -/
def Conn.forceClose (c : Conn) : Conn :=
  { (tryClose c) with connClosed := true }

/-- Translated from `func (c *Conn) ForceClose() error` (the keepalive
join `wg.Wait()` has no effect on the modelled state). -/
def Conn.ForceClose (c : Conn) : Conn :=
  c.forceClose

/-- Translated from `func (c *Conn) startFrame(h header) error`: locks the
write mutex, writes the header, and on error unlocks and applies the
`closed`-channel remap of the deferred handler. -/
def Conn.startFrame (h : header) (c : Conn) : (Except WsErr Unit) × Conn :=
  let c0 := { c with lockHeld := true }
  match bwrite h.write c0 with
  | (Except.error e, c1) => (Except.error (remapClosed c1.closed e), { c1 with lockHeld := false })
  | (Except.ok _, c1) => (Except.ok (), { c1 with writeLength := h.length })

/-- Translated from `func (c *Conn) StartText(length uint64) error`. -/
def Conn.StartText (length : Nat) (c : Conn) : (Except WsErr Unit) × Conn :=
  c.startFrame { header.zero with fin := true, opcode := opText, length := length }

/-- Translated from `func (c *Conn) StartBinary(length uint64) error`. -/
def Conn.StartBinary (length : Nat) (c : Conn) : (Except WsErr Unit) × Conn :=
  c.startFrame { header.zero with fin := true, opcode := opBinary, length := length }

/-- Translated from `func (c *Conn) StartTextStream() error`. -/
def Conn.StartTextStream (c : Conn) : (Except WsErr Unit) × Conn :=
  match c.startFrame { header.zero with opcode := opText } with
  | (Except.error e, c1) => (Except.error e, c1)
  | (Except.ok _, c1) => (Except.ok (), { c1 with streamWrite := true })

/-- Translated from `func (c *Conn) StartBinaryStream() error`. -/
def Conn.StartBinaryStream (c : Conn) : (Except WsErr Unit) × Conn :=
  match c.startFrame { header.zero with opcode := opBinary } with
  | (Except.error e, c1) => (Except.error e, c1)
  | (Except.ok _, c1) => (Except.ok (), { c1 with streamWrite := true })

/-- Translated from `func (c *Conn) End() error`: in stream mode writes the
terminator frame, otherwise checks `writeLength == 0`; flushes; unlocks on
every path; errors pass through the `closed`-channel remap. -/
def Conn.End (c : Conn) : (Except WsErr Unit) × Conn :=
  if c.streamWrite then
    match bwrite (header.write { header.zero with fin := true, opcode := opContinue }) c with
    | (Except.error e, c1) => (Except.error (remapClosed c1.closed e), { c1 with lockHeld := false })
    | (Except.ok _, c1) =>
      match bflush c1 with
      | (Except.error e, c2) => (Except.error (remapClosed c2.closed e), { c2 with lockHeld := false })
      | (Except.ok _, c2) => (Except.ok (), { c2 with lockHeld := false })
  else
    if c.writeLength ≠ 0 then
      (Except.error (remapClosed c.closed WsErr.incompleteFrame), { c with lockHeld := false })
    else
      match bflush c with
      | (Except.error e, c2) => (Except.error (remapClosed c2.closed e), { c2 with lockHeld := false })
      | (Except.ok _, c2) => (Except.ok (), { c2 with lockHeld := false })

/-- Translated from `func (c *Conn) Write(dat []byte) (n int, err error)`:
in stream mode emits one non-final continuation frame per call; otherwise
requires `len(dat) <= writeLength`, decrements it and keeps the lock, while
an oversize write unlocks and fails; errors pass through the
`closed`-channel remap of the deferred handler. -/
def Conn.Write (dat : List Nat) (c : Conn) : (Except WsErr Nat) × Conn :=
  if c.streamWrite then
    match bwrite (header.write
        { header.zero with fin := false, opcode := opContinue, length := dat.length }) c with
    | (Except.error e, c1) => (Except.error (remapClosed c1.closed e), { c1 with lockHeld := false })
    | (Except.ok _, c1) =>
      match bwrite dat c1 with
      | (Except.error e, c2) =>
        (Except.error (remapClosed c2.closed e), { c2 with lockHeld := false })
      | (Except.ok _, c2) => (Except.ok dat.length, c2)
  else
    if dat.length ≤ c.writeLength then
      match bwrite dat c with
      | (Except.error e, c1) =>
        (Except.error (remapClosed c1.closed e), { c1 with lockHeld := false })
      | (Except.ok _, c1) =>
        (Except.ok dat.length, { c1 with writeLength := c1.writeLength - dat.length })
    else
      (Except.error (remapClosed c.closed WsErr.oversizeWrite), { c with lockHeld := false })

/-- Translated from `func (c *Conn) writeControl(h header, dat []byte) error`:
writes header, payload, and flushes under the write mutex (taken and released
by defer, so `lockHeld` is unchanged on return).  Note: unlike the data-send
path there is no deferred `closed`-channel remap here. -/
def Conn.writeControl (h : header) (dat : List Nat) (c : Conn) : (Except WsErr Unit) × Conn :=
  match bwrite h.write c with
  | (Except.error e, c1) => (Except.error e, c1)
  | (Except.ok _, c1) =>
    match bwrite dat c1 with
    | (Except.error e, c2) => (Except.error e, c2)
    | (Except.ok _, c2) =>
      match bflush c2 with
      | (Except.error e, c3) => (Except.error e, c3)
      | (Except.ok _, c3) => (Except.ok (), c3)

/-- Translated from `func (c *Conn) ping(dat []byte) error`. -/
def Conn.ping (dat : List Nat) (c : Conn) : (Except WsErr Unit) × Conn :=
  if dat.length > 125 then (Except.error WsErr.pingExceedsMax, c)
  else c.writeControl { header.zero with fin := true, opcode := opPing, length := dat.length } dat

/-- Frame type constant `TextFrame = iota + 1`. -/
def TextFrame : Nat := 1

/-- Frame type constant `BinaryFrame`. -/
def BinaryFrame : Nat := 2

/-- Translated from `func (c *Conn) sendPong(h header) error`: writes a pong
header copying the ping's length, force-closes on a gigantic ping
(`h.length > 1<<16`), otherwise copies the payload through
(`io.CopyN(c.brw, c.brw, ...)`) and flushes. -/
def Conn.sendPong (h : header) (c : Conn) : (Except WsErr Unit) × Conn :=
  match bwrite (header.write
      { header.zero with fin := true, opcode := opPong, length := h.length }) c with
  | (Except.error e, c1) => (Except.error e, c1)
  | (Except.ok _, c1) =>
    if h.length > (1 <<< 16) then (Except.error WsErr.giganticPing, c1.ForceClose)
    else if h.length ≤ c1.inp.length then
      let c2 := { c1 with inp := c1.inp.drop h.length, out := c1.out ++ c1.inp.take h.length }
      match bflush c2 with
      | (Except.error e, c3) => (Except.error e, c3)
      | (Except.ok _, c3) => (Except.ok (), c3)
    else (Except.error WsErr.ioErr, { c1 with inp := [], out := c1.out ++ c1.inp })

theorem sendPong_inp_le (h : header) (c : Conn) :
    ((Conn.sendPong h c).2).inp.length ≤ c.inp.length := by
  simp only [Conn.sendPong, bwrite]
  split
  · next heq =>
    split at heq
    · injection heq with h1 h2
      subst h2
      simp
    · simp at heq
  · next heq =>
    split at heq
    · simp at heq
    · injection heq with h1 h2
      subst h2
      simp only
      split
      · simp [Conn.ForceClose, Conn.forceClose, tryClose]
      · split
        · simp only [bflush]
          split
          · next heq =>
            split at heq
            · injection heq with h1 h2
              subst h2
              simp
            · simp at heq
          · next heq =>
            split at heq
            · simp at heq
            · injection heq with h1 h2
              subst h2
              simp
        · simp

/-- Translated from `func (c *Conn) respClose(h header) error`: when we have
not sent a close ourselves, echo a close header; reject oversized close
frames (force-close); then either discard the payload (close already sent) or
tee it through to the peer while recording it; flush; record the close
reason. -/
def Conn.respClose (h : header) (c : Conn) : (Except WsErr Unit) × Conn :=
  match (if !c.closeSent then
      bwrite (header.write
        { header.zero with fin := true, opcode := opClose, length := h.length }) c
    else (Except.ok (), c)) with
  | (Except.error e, c1) => (Except.error e, c1)
  | (Except.ok _, c1) =>
    if h.length > 125 then (Except.error WsErr.oversizedClose, c1.ForceClose)
    else if c1.closeSent then
      if h.length ≤ c1.inp.length then
        match bflush { c1 with inp := c1.inp.drop h.length } with
        | (Except.error e, c2) => (Except.error e, c2)
        | (Except.ok _, c2) => (Except.ok (), c2)
      else (Except.error WsErr.ioErr, { c1 with inp := [] })
    else
      if h.length ≤ c1.inp.length then
        let cmsg := c1.inp.take h.length
        match bflush { c1 with inp := c1.inp.drop h.length, out := c1.out ++ cmsg } with
        | (Except.error e, c2) => (Except.error e, c2)
        | (Except.ok _, c2) => (Except.ok (), { c2 with closeReason := some cmsg })
      else (Except.error WsErr.ioErr, { c1 with inp := [], out := c1.out ++ c1.inp })

/-- Models `strconv.ParseUint(string(buf), 10, 32)`: the payload must be a
non-empty string of ASCII decimal digits whose value fits in 32 bits. -/
def parseUint32 (bs : List Nat) : Option Nat :=
  if bs = [] then none
  else if bs.all (fun b => 48 ≤ b && b ≤ 57) then
    if bs.foldl (fun acc b => acc * 10 + (b - 48)) 0 < 2 ^ 32 then
      some (bs.foldl (fun acc b => acc * 10 + (b - 48)) 0)
    else none
  else none

theorem takeN_len {n : Nat} {s b r : List Nat} (h : takeN n s = some (b, r)) :
    r.length + n = s.length := by
  unfold takeN at h
  split at h
  · next hle =>
    injection h with h2
    rw [Prod.mk.injEq] at h2
    obtain ⟨-, hr⟩ := h2
    subst hr
    simp
    omega
  · simp at h

theorem readHeader_len {s : List Nat} {hd : header} {r : List Nat}
    (hh : readHeader s = some (hd, r)) : r.length + 2 ≤ s.length := by
  unfold readHeader at hh
  cases e1 : takeN 2 s with
  | none => rw [e1] at hh; exact absurd hh (by simp)
  | some bs1 =>
    obtain ⟨b, s1⟩ := bs1
    rw [e1] at hh
    simp only at hh
    have l1 := takeN_len e1
    by_cases h126 : (b.getD 1 0 &&& ((1 <<< 7) - 1)) = 126
    · rw [if_pos h126] at hh
      cases e2 : takeN 2 s1 with
      | none => rw [e2] at hh; exact absurd hh (by simp)
      | some cs2 =>
        obtain ⟨cbuf, s2⟩ := cs2
        rw [e2] at hh
        simp only at hh
        have l2 := takeN_len e2
        split at hh
        · cases e3 : takeN 4 s2 with
          | none => rw [e3] at hh; exact absurd hh (by simp)
          | some ks3 =>
            obtain ⟨k, s3⟩ := ks3
            rw [e3] at hh
            simp only at hh
            have l3 := takeN_len e3
            injection hh with h2
            rw [Prod.mk.injEq] at h2
            obtain ⟨-, hr⟩ := h2
            subst hr
            omega
        · injection hh with h2
          rw [Prod.mk.injEq] at h2
          obtain ⟨-, hr⟩ := h2
          subst hr
          omega
    · rw [if_neg h126] at hh
      by_cases h127 : (b.getD 1 0 &&& ((1 <<< 7) - 1)) = 127
      · rw [if_pos h127] at hh
        cases e2 : takeN 8 s1 with
        | none => rw [e2] at hh; exact absurd hh (by simp)
        | some cs2 =>
          obtain ⟨cbuf, s2⟩ := cs2
          rw [e2] at hh
          simp only at hh
          have l2 := takeN_len e2
          split at hh
          · cases e3 : takeN 4 s2 with
            | none => rw [e3] at hh; exact absurd hh (by simp)
            | some ks3 =>
              obtain ⟨k, s3⟩ := ks3
              rw [e3] at hh
              simp only at hh
              have l3 := takeN_len e3
              injection hh with h2
              rw [Prod.mk.injEq] at h2
              obtain ⟨-, hr⟩ := h2
              subst hr
              omega
          · injection hh with h2
            rw [Prod.mk.injEq] at h2
            obtain ⟨-, hr⟩ := h2
            subst hr
            omega
      · rw [if_neg h127] at hh
        simp only at hh
        split at hh
        · cases e3 : takeN 4 s1 with
          | none => rw [e3] at hh; exact absurd hh (by simp)
          | some ks3 =>
            obtain ⟨k, s3⟩ := ks3
            rw [e3] at hh
            simp only at hh
            have l3 := takeN_len e3
            injection hh with h2
            rw [Prod.mk.injEq] at h2
            obtain ⟨-, hr⟩ := h2
            subst hr
            omega
        · injection hh with h2
          rw [Prod.mk.injEq] at h2
          obtain ⟨-, hr⟩ := h2
          subst hr
          omega

/-- Translated from the `frame:` loop of `func (c *Conn) NextFrame()`
(the `goto frame` is recursion): dispatch on the opcode of the next header;
text/binary frames position the receive cursor and return; a pong is parsed
as a numbered keepalive answer (CAS `lastPong`: `uint32(n)-1 -> uint32(n)`)
and the loop continues; a stray continuation is a protocol error; a ping is
answered by `sendPong` and the loop continues; a close runs `respClose`,
force-closes, and reports either the recorded peer close reason
(`ErrClosed`) or `io.EOF`; unknown opcodes fail. -/
def Conn.nextFrameGo (c : Conn) : (Except WsErr Nat) × Conn :=
  match hh : readHeader c.inp with
  | none => (Except.error WsErr.ioErr, c)
  | some (h, rest) =>
    if h.opcode = opText then
      (Except.ok TextFrame,
        { c with inp := rest, readLength := h.length, readFrame := h, notFirstRead := true })
    else if h.opcode = opBinary then
      (Except.ok BinaryFrame,
        { c with inp := rest, readLength := h.length, readFrame := h, notFirstRead := true })
    else if h.opcode = opPong then
      if h.length > 125 then (Except.error WsErr.oversizedPong, { c with inp := rest })
      else if h.length ≤ rest.length then
        match parseUint32 (rest.take h.length) with
        | none => (Except.error WsErr.pongParseFail, { c with inp := rest.drop h.length })
        | some n =>
          if c.lastPong = (n + 2 ^ 32 - 1) % 2 ^ 32 then
            Conn.nextFrameGo { c with inp := rest.drop h.length, lastPong := n }
          else (Except.error WsErr.pongMismatch, { c with inp := rest.drop h.length })
      else (Except.error WsErr.pongReadFail, { c with inp := [] })
    else if h.opcode = opContinue then
      (Except.error WsErr.continueNoStart, { c with inp := rest })
    else if h.opcode = opPing then
      match hsp : Conn.sendPong h { c with inp := rest } with
      | (Except.error e, c1) => (Except.error e, c1)
      | (Except.ok _, c1) => Conn.nextFrameGo c1
    else if h.opcode = opClose then
      match Conn.respClose h { c with inp := rest } with
      | (Except.error e, c1) => (Except.error e, c1)
      | (Except.ok _, c1) =>
        match (c1.ForceClose).closeReason with
        | some raw => (Except.error (WsErr.closedByPeer raw), c1.ForceClose)
        | none => (Except.error WsErr.eofErr, c1.ForceClose)
    else (Except.error (WsErr.unknownOpcode h.opcode), { c with inp := rest })
termination_by c.inp.length
decreasing_by
  · have h1 := readHeader_len hh
    simp only [List.length_drop]
    omega
  · have h1 := readHeader_len hh
    have h2 := sendPong_inp_le h { c with inp := rest }
    rw [hsp] at h2
    simp only at h2
    omega

/-- Translated from `func (c *Conn) NextFrame() (int, error)`: the
previous-frame-not-fully-read guard, then the header dispatch loop. -/
def Conn.NextFrame (c : Conn) : (Except WsErr Nat) × Conn :=
  if c.readLength > 0 ∨ (c.readFrame.fin = false ∧ c.notFirstRead = true) then
    (Except.error WsErr.prevNotRead, c)
  else c.nextFrameGo

/-- Translated from `func (c *Conn) Read(buf []byte) (int, error)` (the
`goto start` is recursion): end of message when the cursor is exhausted on a
final frame; otherwise an exhausted cursor consumes a continuation header;
otherwise up to `min n readLength` payload bytes are read and, when the
current fragment is masked, XORed with `maskKey[i%4]` where `i` is the index
within this call's buffer. -/
def Conn.Read (n : Nat) (c : Conn) : (Except WsErr (List Nat)) × Conn :=
  if c.readLength = 0 ∧ c.readFrame.fin = true then (Except.error WsErr.eofErr, c)
  else if c.readLength = 0 then
    match hh : readHeader c.inp with
    | none => (Except.error WsErr.ioErr, c)
    | some (h, rest) =>
      if h.opcode ≠ opContinue then
        (Except.error (WsErr.expectedContinuation h.opcode), { c with inp := rest })
      else Conn.Read n { c with inp := rest, readLength := h.length, readFrame := h }
  else
    let m := min n c.readLength
    if m ≤ c.inp.length then
      let raw := c.inp.take m
      let buf := if c.readFrame.mask then
          raw.mapIdx (fun i v => v ^^^ c.readFrame.maskKey.getD (i % 4) 0)
        else raw
      (Except.ok buf, { c with inp := c.inp.drop m, readLength := c.readLength - m })
    else (Except.error WsErr.ioErr, { c with inp := [] })
termination_by c.inp.length
decreasing_by
  have h1 := readHeader_len hh
  simp
  omega

/-- Reason truncation of `writeClose`: `if len(reason)+2 > 125 { reason =
reason[:125-5] + "..." }` (`...` is the three bytes 46 46 46). -/
def truncateReason (reason : List Nat) : List Nat :=
  if reason.length + 2 > 125 then reason.take (125 - 5) ++ [46, 46, 46] else reason

/-- The close-frame payload `writeClose` emits after its header: the two
big-endian status-code bytes then the (truncated) reason bytes. -/
def closePayload (code : Nat) (reason : List Nat) : List Nat :=
  bePutUint16 code ++ truncateReason reason

/-- Translated from `func (c *Conn) writeClose(code uint16, reason string) error`:
under the write mutex, truncate the reason, write a close header whose length
is `len(reason)+2`, write the code bytes and the reason, and flush.  Note
that no statement of `writeClose` (or of `Close` below) assigns `closeSent`. -/
def Conn.writeClose (code : Nat) (reason : List Nat) (c : Conn) : (Except WsErr Unit) × Conn :=
  let ch : header :=
    { header.zero with fin := true, opcode := opClose, length := (truncateReason reason).length + 2 }
  match bwrite ch.write c with
  | (Except.error e, c1) => (Except.error e, c1)
  | (Except.ok _, c1) =>
    match bwrite (bePutUint16 code) c1 with
    | (Except.error e, c2) => (Except.error e, c2)
    | (Except.ok _, c2) =>
      match bwrite (truncateReason reason) c2 with
      | (Except.error e, c3) => (Except.error e, c3)
      | (Except.ok _, c3) =>
        match bflush c3 with
        | (Except.error e, c4) => (Except.error e, c4)
        | (Except.ok _, c4) => (Except.ok (), c4)

/-- Translated from `func (c *Conn) Close(ctx, code, reason)`, success path:
acquire the data-send detector, send the closure message via `writeClose`,
then wait for the `closed` channel.  The context/timeout machinery performs
no state change on this path, and nothing in `Close` assigns `closeSent`:
the returned connection state is exactly what `writeClose` produced. -/
def Conn.Close (code : Nat) (reason : List Nat) (c : Conn) : (Except WsErr Unit) × Conn :=
  Conn.writeClose code reason c

/-- `var errBadCloseMessage = errors.New("bad close message")`. -/
def errBadCloseMessage : String := "bad close message"

/-- Translated from `type ErrCloseMessage struct`. -/
structure ErrCloseMessage where
  rawMsg : List Nat
deriving DecidableEq

/-- Translated from `func (err ErrCloseMessage) Code() (uint16, error)`. -/
def ErrCloseMessage.Code (e : ErrCloseMessage) : Except String Nat :=
  if e.rawMsg.length < 2 then Except.error errBadCloseMessage
  else Except.ok (beUint16 (e.rawMsg.take 2))

/-- Translated from `func (err ErrCloseMessage) Reason() (string, error)`
(the reason string is kept as its byte list). -/
def ErrCloseMessage.Reason (e : ErrCloseMessage) : Except String (List Nat) :=
  if e.rawMsg.length < 2 then Except.error errBadCloseMessage
  else Except.ok (e.rawMsg.drop 2)

/-- One hexadecimal digit, lower case (as Go escape sequences print it). -/
def hexDigit (n : Nat) : Char :=
  if n < 10 then Char.ofNat (48 + n) else Char.ofNat (87 + n)

/-- Models the strconv quoting used by the format verb q of fmt for a byte
string: printable ASCII is kept, quote and backslash are escaped, common
control characters get their two-character escapes, and remaining bytes are
hex-escaped.  (Multi-byte UTF-8 runes are hex-escaped bytewise here; no claim
below depends on this branch.) -/
def goQuoteChar (b : Nat) : List Char :=
  if b = 34 then ['\\', '"']
  else if b = 92 then ['\\', '\\']
  else if b = 7 then ['\\', 'a']
  else if b = 8 then ['\\', 'b']
  else if b = 9 then ['\\', 't']
  else if b = 10 then ['\\', 'n']
  else if b = 11 then ['\\', 'v']
  else if b = 12 then ['\\', 'f']
  else if b = 13 then ['\\', 'r']
  else if 32 ≤ b ∧ b ≤ 126 then [Char.ofNat b]
  else ['\\', 'x', hexDigit (b / 16 % 16), hexDigit (b % 16)]

/-- The format verb q of fmt applied to a byte string. -/
def goQuote (bs : List Nat) : String :=
  String.mk (['"'] ++ bs.flatMap goQuoteChar ++ ['"'])

/-- Translated from `func (err ErrCloseMessage) Error() string`. -/
def ErrCloseMessage.Error (e : ErrCloseMessage) : String :=
  match e.Code with
  | Except.error _ => errBadCloseMessage
  | Except.ok code =>
    match e.Reason with
    | Except.error _ => errBadCloseMessage
    | Except.ok reason =>
      if reason = [] then "closed with code " ++ toString code
      else "closed with code " ++ toString code ++ ": " ++ goQuote reason

/-- Models `strconv.FormatUint(n, 10)` as ASCII bytes. -/
def formatUint (n : Nat) : List Nat :=
  (Nat.toDigits 10 n).map Char.toNat

/-- The strike computation at the top of `func (c *Conn) pingLoop`:
`interval` defaults to 30s (nanoseconds) when zero, `timeout` to
`2*interval` when zero; `nTimeout := timeout / interval`, incremented when
the division has a remainder. -/
def pingLoopNTimeout (interval timeout : Nat) : Nat :=
  let i := if interval = 0 then 30000000000 else interval
  let t := if timeout = 0 then 2 * i else timeout
  t / i + (if t % i ≠ 0 then 1 else 0)

/-- The local loop state of `pingLoop`: the `lastPing` counter (a uint32) and
the remaining strike count (a Duration, an int64). -/
structure pingState where
  lastPing : Nat
  strikesRemaining : Int
deriving DecidableEq

/-- One `tick.C` iteration of the `pingLoop` body.  `lastPong` is the value
`atomic.LoadUint32(&c.lastPong)` observes and `pingOk` whether `c.ping`
succeeds.  Result: new loop state, whether the connection was force-closed
(ending the loop), and the payload of the ping that was attempted, if any. -/
def pingTick (nTimeout : Int) (lastPong : Nat) (pingOk : Bool) (s : pingState) :
    pingState × Bool × Option (List Nat) :=
  if lastPong < s.lastPing then
    let s1 : pingState := { s with strikesRemaining := s.strikesRemaining - 1 }
    if s1.strikesRemaining = 0 then (s1, true, none) else (s1, false, none)
  else
    let lp := (s.lastPing + 1) % 2 ^ 32
    ({ lastPing := lp, strikesRemaining := nTimeout }, !pingOk, some (formatUint lp))

deriving instance DecidableEq for Except

/-- A fresh connection state: empty buffers, working writer, zero cursors
(the Go zero values of the `Conn` fields). -/
def conn0 : Conn :=
  { inp := [], out := [], wErr := false, lockHeld := false, writeLength := 0,
    streamWrite := false, readLength := 0, readFrame := header.zero, notFirstRead := false,
    lastPong := 0, closeSent := false, closeReason := none, closed := false,
    connClosed := false }

/-- Claim C9: for every reason whose length plus 2 exceeds 125 bytes, the
close payload emitted by `Close(ctx, code, reason)` is exactly 125 bytes:
the two big-endian status-code bytes, the first 120 bytes of the original
reason, then the three bytes of an ellipsis; shorter reasons are sent
untruncated; and on a working connection `Close` writes exactly the close
header followed by that payload. -/
theorem close_reason_truncation_spec (code : Nat) (reason : List Nat) :
    (reason.length + 2 > 125 →
      closePayload code reason = bePutUint16 code ++ reason.take 120 ++ [46, 46, 46] ∧
      (closePayload code reason).length = 125) ∧
    (reason.length + 2 ≤ 125 → closePayload code reason = bePutUint16 code ++ reason) ∧
    (∀ c : Conn, c.wErr = false →
      (Conn.Close code reason c).2.out =
        c.out ++ header.write { header.zero with fin := true, opcode := opClose, length := (truncateReason reason).length + 2 } ++ closePayload code reason) := by
  refine ⟨?_, ?_, ?_⟩
  · intro hgt
    constructor
    · simp [closePayload, truncateReason, hgt]
    · have htr : truncateReason reason = reason.take (125 - 5) ++ [46, 46, 46] := by
        unfold truncateReason
        rw [if_pos hgt]
      simp [closePayload, htr, bePutUint16]
      omega
  · intro hle
    have hn : ¬ (reason.length + 2 > 125) := by omega
    simp [closePayload, truncateReason, hn]
  · intro c hw
    simp [Conn.Close, Conn.writeClose, bwrite, bflush, hw, closePayload]

/-- Claim C9 witness: a 200-byte reason yields a 125-byte payload made of the
code bytes, 120 reason bytes, and the ellipsis. -/
theorem close_reason_truncation_witness :
    closePayload 1000 (List.replicate 200 97) =
      bePutUint16 1000 ++ (List.replicate 200 97).take 120 ++ [46, 46, 46] ∧
    (closePayload 1000 (List.replicate 200 97)).length = 125 :=
  (close_reason_truncation_spec 1000 (List.replicate 200 97)).1
    (by rw [List.length_replicate]; omega)

/-- Claim C10: the close-message accessors are total: on a payload shorter
than 2 bytes, `Code`, `Reason` return the bad-close-message error and
`Error()` the string "bad close message" (no out-of-range access); on a
payload of at least 2 bytes `Code` is the big-endian 16-bit value of the
first two bytes and `Reason` the remaining bytes. -/
theorem errCloseMessage_total (raw : List Nat) :
    (raw.length < 2 →
      ErrCloseMessage.Code ⟨raw⟩ = Except.error errBadCloseMessage ∧
      ErrCloseMessage.Reason ⟨raw⟩ = Except.error errBadCloseMessage ∧
      ErrCloseMessage.Error ⟨raw⟩ = "bad close message") ∧
    (2 ≤ raw.length → (∀ b ∈ raw, b < 256) →
      ErrCloseMessage.Code ⟨raw⟩ = Except.ok (256 * raw.getD 0 0 + raw.getD 1 0) ∧
      ErrCloseMessage.Reason ⟨raw⟩ = Except.ok (raw.drop 2)) := by
  constructor
  · intro hlt
    refine ⟨?_, ?_, ?_⟩
    · simp [ErrCloseMessage.Code, hlt]
    · simp [ErrCloseMessage.Reason, hlt]
    · simp [ErrCloseMessage.Error, ErrCloseMessage.Code, hlt, errBadCloseMessage]
  · intro hge hb
    match raw, hge, hb with
    | a :: b :: r, _, hb =>
      have hblt : b < 2 ^ 8 := by
        have := hb b (by simp)
        norm_num
        omega
      have hval : beUint16 [a, b] = 256 * a + b := by
        simp [beUint16]
        rw [lor_shl a 8 hblt]
        norm_num
        omega
      constructor
      · simp [ErrCloseMessage.Code]
        have hc : ¬ ((a :: b :: r).length < 2) := by simp
        rw [if_neg (by simpa using hc)]
        rw [hval]
      · simp [ErrCloseMessage.Reason]

/-- Claim C10 witness: concrete close payloads, short and well-formed. -/
theorem errCloseMessage_total_witness :
    (ErrCloseMessage.Code ⟨[7]⟩ = Except.error errBadCloseMessage ∧
      ErrCloseMessage.Reason ⟨[7]⟩ = Except.error errBadCloseMessage ∧
      ErrCloseMessage.Error ⟨[7]⟩ = "bad close message") ∧
    (ErrCloseMessage.Code ⟨[3, 232, 104, 105]⟩ = Except.ok 1000 ∧
      ErrCloseMessage.Reason ⟨[3, 232, 104, 105]⟩ = Except.ok [104, 105]) :=
  ⟨(errCloseMessage_total [7]).1 (by decide),
    (errCloseMessage_total [3, 232, 104, 105]).2 (by decide) (by decide)⟩

/-- Division rounding up, as the code computes it (quotient plus one when
there is a remainder) equals the usual ceiling form. -/
theorem ceil_div_eq (i t : Nat) (hipos : 0 < i) :
    t / i + (if t % i ≠ 0 then 1 else 0) = (t + i - 1) / i := by
  have h1 : t % i < i := Nat.mod_lt _ hipos
  have hdm : i * (t / i) + t % i = t := Nat.div_add_mod t i
  by_cases hr : t % i = 0
  · rw [if_neg (by simp [hr])]
    have he : t + i - 1 = i * (t / i) + (i - 1) := by omega
    rw [he, Nat.mul_add_div hipos, Nat.div_eq_of_lt (show i - 1 < i from by omega)]
  · rw [if_pos hr]
    have he : t + i - 1 = i * (t / i + 1) + (t % i - 1) := by
      have expand : i * (t / i + 1) = i * (t / i) + i := by ring
      rw [expand]
      omega
    rw [he, Nat.mul_add_div hipos, Nat.div_eq_of_lt (show t % i - 1 < i from by omega)]

/-- Claim C6: the keepalive loop uses `strikes = ceil(pong_timeout/interval)`
(interval defaulting to 30s when zero, pong_timeout to twice the interval
when zero); on a tick with `last_pong < last_ping` it decrements the strike
count and force-closes exactly when the count reaches zero; otherwise it
resets the strike count, increments `last_ping` (a uint32), and sends a ping
whose payload is the decimal ASCII of the new `last_ping`, force-closing
exactly when that ping send fails. -/
theorem pingLoop_tick_spec (interval timeout : Nat) (nT : Int) (lastPong : Nat) (ok : Bool)
    (s : pingState) :
    pingLoopNTimeout interval timeout =
      ((if timeout = 0 then 2 * (if interval = 0 then 30000000000 else interval) else timeout) +
        (if interval = 0 then 30000000000 else interval) - 1) /
        (if interval = 0 then 30000000000 else interval) ∧
    (lastPong < s.lastPing →
      pingTick nT lastPong ok s =
        ({ s with strikesRemaining := s.strikesRemaining - 1 },
          decide (s.strikesRemaining - 1 = 0), none)) ∧
    (¬ lastPong < s.lastPing →
      pingTick nT lastPong ok s =
        ({ lastPing := (s.lastPing + 1) % 2 ^ 32, strikesRemaining := nT },
          !ok, some (formatUint ((s.lastPing + 1) % 2 ^ 32)))) := by
  refine ⟨?_, ?_, ?_⟩
  · unfold pingLoopNTimeout
    simp only
    have hipos : 0 < (if interval = 0 then 30000000000 else interval) := by
      split
      · omega
      · next hne => omega
    exact ceil_div_eq (if interval = 0 then 30000000000 else interval)
      (if timeout = 0 then 2 * (if interval = 0 then 30000000000 else interval) else timeout)
      hipos
  · intro hlt
    simp only [pingTick, if_pos hlt]
    split
    · next hz => simp [hz]
    · next hz => simp [hz]
  · intro hge
    simp only [pingTick, if_neg hge]

/-- Claim C6 witness: interval 100, timeout 250 gives 3 strikes; a silent
tick at one strike closes; a healthy tick pings with payload "6". -/
theorem pingLoop_tick_spec_witness :
    pingLoopNTimeout 100 250 = (250 + 100 - 1) / 100 ∧
    pingTick 3 4 true { lastPing := 5, strikesRemaining := 1 } =
      ({ lastPing := 5, strikesRemaining := 0 }, true, none) ∧
    pingTick 3 5 true { lastPing := 5, strikesRemaining := 1 } =
      ({ lastPing := 6, strikesRemaining := 3 }, false, some [54]) := by
  refine ⟨(pingLoop_tick_spec 100 250 3 4 true ⟨5, 1⟩).1, ?_, ?_⟩
  · have h := (pingLoop_tick_spec 100 250 3 4 true ⟨5, 1⟩).2.1 (by decide)
    rw [h]
    decide
  · have h := (pingLoop_tick_spec 100 250 3 5 true ⟨5, 1⟩).2.2 (by decide)
    rw [h]
    decide

/-- The connection state of the oversize-write counterexample: mid-frame
(3 bytes remaining) with the write mutex held. -/
def connC4 : Conn :=
  { conn0 with writeLength := 3, lockHeld := true }

/-- Claim C4 counterexample: a 5-byte write into a frame with 3 remaining
bytes fails with the oversize-write error, but the write mutex is released
by the code (`c.writeLock.Unlock()` before `return`), contradicting the
claim that the mutex remains held after the call returns. -/
theorem write_oversize_counterexample :
    (Conn.Write [1, 2, 3, 4, 5] connC4).1 = Except.error WsErr.oversizeWrite ∧
    ¬ ((Conn.Write [1, 2, 3, 4, 5] connC4).2.lockHeld = true) := by
  constructor
  · decide
  · decide

/-- Claim C4 as amended: in non-stream mode an oversize write returns the
oversize-write error, writes no payload bytes, leaves `writeLength`
unchanged, and releases the write mutex (it does not remain held). -/
theorem write_oversize_spec (dat : List Nat) (c : Conn)
    (hs : c.streamWrite = false) (hlen : c.writeLength < dat.length) (hcl : c.closed = false) :
    Conn.Write dat c = (Except.error WsErr.oversizeWrite, { c with lockHeld := false }) ∧
    (Conn.Write dat c).2.out = c.out ∧
    (Conn.Write dat c).2.writeLength = c.writeLength ∧
    (Conn.Write dat c).2.lockHeld = false := by
  have hn : ¬ (dat.length ≤ c.writeLength) := by omega
  refine ⟨?_, ?_, ?_, ?_⟩ <;> simp [Conn.Write, hs, hn, remapClosed, hcl]

/-- Claim C4 witness: the amended statement at the counterexample state. -/
theorem write_oversize_spec_witness :
    Conn.Write [1, 2, 3, 4, 5] connC4 =
      (Except.error WsErr.oversizeWrite, { connC4 with lockHeld := false }) ∧
    (Conn.Write [1, 2, 3, 4, 5] connC4).2.out = connC4.out ∧
    (Conn.Write [1, 2, 3, 4, 5] connC4).2.writeLength = connC4.writeLength ∧
    (Conn.Write [1, 2, 3, 4, 5] connC4).2.lockHeld = false :=
  write_oversize_spec [1, 2, 3, 4, 5] connC4 (by decide) (by decide) (by decide)

/-- The connection state of the already-closed counterexample: the close
notifier has fired and the underlying writer fails. -/
def connC5 : Conn :=
  { conn0 with closed := true, wErr := true }

/-- Claim C5 counterexample: with the close notifier fired and the
underlying write failing, `writeControl` returns the raw I/O error, not
`ErrAlreadyClosed` — the control-send path has no deferred remap. -/
theorem writeControl_no_remap_counterexample :
    (Conn.writeControl { header.zero with fin := true, opcode := opPing, length := 0 }
        [] connC5).1 = Except.error WsErr.ioErr ∧
    ¬ ((Conn.writeControl { header.zero with fin := true, opcode := opPing, length := 0 }
        [] connC5).1 = Except.error WsErr.alreadyClosed) := by
  constructor
  · decide
  · decide

/-- Claim C5 as amended: when the closed-notifier channel has been closed and
the underlying write fails, the data-send operations (`startFrame` and its
wrappers `StartText`, `StartBinary`, `StartTextStream`, `StartBinaryStream`,
plus `Write` and `End`) return the distinguished `ErrAlreadyClosed`; the
control send `writeControl` does not translate and returns the raw I/O
error. -/
theorem send_remap_spec (c : Conn) (h : header) (dat : List Nat) (len : Nat)
    (hcl : c.closed = true) (hw : c.wErr = true) :
    (c.startFrame h).1 = Except.error WsErr.alreadyClosed ∧
    (Conn.StartText len c).1 = Except.error WsErr.alreadyClosed ∧
    (Conn.StartBinary len c).1 = Except.error WsErr.alreadyClosed ∧
    (Conn.StartTextStream c).1 = Except.error WsErr.alreadyClosed ∧
    (Conn.StartBinaryStream c).1 = Except.error WsErr.alreadyClosed ∧
    (Conn.Write dat c).1 = Except.error WsErr.alreadyClosed ∧
    (Conn.End c).1 = Except.error WsErr.alreadyClosed ∧
    (c.writeControl h dat).1 = Except.error WsErr.ioErr := by
  refine ⟨?_, ?_, ?_, ?_, ?_, ?_, ?_, ?_⟩
  · simp [Conn.startFrame, bwrite, hw, remapClosed, hcl]
  · simp [Conn.StartText, Conn.startFrame, bwrite, hw, remapClosed, hcl]
  · simp [Conn.StartBinary, Conn.startFrame, bwrite, hw, remapClosed, hcl]
  · simp [Conn.StartTextStream, Conn.startFrame, bwrite, hw, remapClosed, hcl]
  · simp [Conn.StartBinaryStream, Conn.startFrame, bwrite, hw, remapClosed, hcl]
  · simp only [Conn.Write]
    split
    · simp [bwrite, hw, remapClosed, hcl]
    · split
      · simp [bwrite, hw, remapClosed, hcl]
      · simp [remapClosed, hcl]
  · simp only [Conn.End]
    split
    · simp [bwrite, hw, remapClosed, hcl]
    · split
      · simp [remapClosed, hcl]
      · simp [bflush, hw, remapClosed, hcl]
  · simp [Conn.writeControl, bwrite, hw]

/-- Claim C5 witness: the amended statement at the counterexample state. -/
theorem send_remap_spec_witness :
    (connC5.startFrame header.zero).1 = Except.error WsErr.alreadyClosed ∧
    (Conn.StartText 5 connC5).1 = Except.error WsErr.alreadyClosed ∧
    (Conn.StartBinary 5 connC5).1 = Except.error WsErr.alreadyClosed ∧
    (Conn.StartTextStream connC5).1 = Except.error WsErr.alreadyClosed ∧
    (Conn.StartBinaryStream connC5).1 = Except.error WsErr.alreadyClosed ∧
    (Conn.Write [1] connC5).1 = Except.error WsErr.alreadyClosed ∧
    (Conn.End connC5).1 = Except.error WsErr.alreadyClosed ∧
    (connC5.writeControl header.zero [1]).1 = Except.error WsErr.ioErr :=
  send_remap_spec connC5 header.zero [1] 5 (by decide) (by decide)

theorem parseUint32_lt {bs : List Nat} {n : Nat} (h : parseUint32 bs = some n) : n < 2 ^ 32 := by
  unfold parseUint32 at h
  split at h
  · simp at h
  · split at h
    · split at h
      · next hv =>
        injection h with h2
        omega
      · simp at h
    · simp at h

/-- Claim C7: when `NextFrame` reads a pong frame it parses the payload as an
unsigned decimal integer `n` and atomically moves `lastPong` from `n-1` to
`n`; a payload longer than 125 bytes, an unparsable payload, or a `lastPong`
that is not `n-1` each yield a protocol error, and on success the loop
continues reading the next frame instead of returning. -/
theorem nextFrame_pong_spec (c : Conn) (h : header) (rest : List Nat)
    (hg : ¬ (c.readLength > 0 ∨ (c.readFrame.fin = false ∧ c.notFirstRead = true)))
    (hh : readHeader c.inp = some (h, rest)) (hop : h.opcode = opPong) :
    (h.length > 125 →
      Conn.NextFrame c = (Except.error WsErr.oversizedPong, { c with inp := rest })) ∧
    (h.length ≤ 125 → h.length ≤ rest.length →
      (parseUint32 (rest.take h.length) = none →
        Conn.NextFrame c =
          (Except.error WsErr.pongParseFail, { c with inp := rest.drop h.length })) ∧
      (∀ n, parseUint32 (rest.take h.length) = some n → 1 ≤ n →
        (c.lastPong = n - 1 →
          Conn.NextFrame c = Conn.nextFrameGo { c with inp := rest.drop h.length, lastPong := n }) ∧
        (c.lastPong ≠ n - 1 →
          Conn.NextFrame c =
            (Except.error WsErr.pongMismatch, { c with inp := rest.drop h.length })))) := by
  have hnf : Conn.NextFrame c = c.nextFrameGo := by
    unfold Conn.NextFrame
    rw [if_neg hg]
  have hbody : Conn.nextFrameGo c =
      (if h.length > 125 then (Except.error WsErr.oversizedPong, { c with inp := rest })
       else if h.length ≤ rest.length then
         match parseUint32 (rest.take h.length) with
         | none => (Except.error WsErr.pongParseFail, { c with inp := rest.drop h.length })
         | some n =>
           if c.lastPong = (n + 2 ^ 32 - 1) % 2 ^ 32 then
             Conn.nextFrameGo { c with inp := rest.drop h.length, lastPong := n }
           else (Except.error WsErr.pongMismatch, { c with inp := rest.drop h.length })
       else (Except.error WsErr.pongReadFail, { c with inp := [] })) := by
    rw [Conn.nextFrameGo]
    split
    · next heq =>
      rw [hh] at heq
      exact absurd heq (by simp)
    · next h' rest' heq =>
      rw [hh] at heq
      injection heq with h2
      rw [Prod.mk.injEq] at h2
      obtain ⟨hh1, hh2⟩ := h2
      subst hh1
      subst hh2
      rw [if_neg (show ¬ h.opcode = opText by rw [hop]; decide),
        if_neg (show ¬ h.opcode = opBinary by rw [hop]; decide),
        if_pos (show h.opcode = opPong from hop)]
  refine ⟨?_, ?_⟩
  · intro hgt
    rw [hnf, hbody, if_pos hgt]
  · intro hle hrl
    constructor
    · intro hpn
      rw [hnf, hbody, if_neg (by omega), if_pos hrl, hpn]
    · intro n hps h1n
      have hn32 : n < 2 ^ 32 := parseUint32_lt hps
      have hmod : (n + 2 ^ 32 - 1) % 2 ^ 32 = n - 1 := by
        have he : n + 2 ^ 32 - 1 = (n - 1) + 2 ^ 32 := by omega
        rw [he, Nat.add_mod_right]
        exact Nat.mod_eq_of_lt (by omega)
      constructor
      · intro heqp
        rw [hnf, hbody, if_neg (by omega), if_pos hrl]
        simp only [hps]
        rw [if_pos (show c.lastPong = (n + 2 ^ 32 - 1) % 2 ^ 32 by rw [hmod]; exact heqp)]
      · intro hnep
        rw [hnf, hbody, if_neg (by omega), if_pos hrl]
        simp only [hps]
        rw [if_neg (show ¬ c.lastPong = (n + 2 ^ 32 - 1) % 2 ^ 32 by rw [hmod]; exact hnep)]

/-- Claim C7 witness: a pong frame with payload "1" against `lastPong = 0`
advances the counter and continues with the following frame. -/
theorem nextFrame_pong_spec_witness :
    Conn.NextFrame { conn0 with inp := [138, 1, 49, 129, 0] } =
      Conn.nextFrameGo { conn0 with inp := [129, 0], lastPong := 1 } := by
  have hh : readHeader ({ conn0 with inp := [138, 1, 49, 129, 0] } : Conn).inp =
      some ({ header.zero with fin := true, opcode := opPong, length := 1 }, [49, 129, 0]) := by
    decide
  have h := ((nextFrame_pong_spec { conn0 with inp := [138, 1, 49, 129, 0] }
      { header.zero with fin := true, opcode := opPong, length := 1 } [49, 129, 0]
      (by decide) hh (by decide)).2 (by decide) (by decide)).2 1 (by decide)
      (by decide)
  have h2 := h.1 (by decide)
  simpa using h2

/-- Claim C8: when `NextFrame` reads a ping frame it responds with a pong
carrying the same payload bytes and loops to read the next frame; a ping
whose declared length exceeds 65536 force-closes the connection and fails,
while declared lengths up to 65536 (including 126..65536) are still echoed
leniently. -/
theorem nextFrame_ping_spec (c : Conn) (h : header) (rest : List Nat)
    (hg : ¬ (c.readLength > 0 ∨ (c.readFrame.fin = false ∧ c.notFirstRead = true)))
    (hh : readHeader c.inp = some (h, rest)) (hop : h.opcode = opPing)
    (hw : c.wErr = false) :
    (h.length ≤ 65536 → h.length ≤ rest.length →
      Conn.NextFrame c = Conn.nextFrameGo { c with inp := rest.drop h.length, out := (c.out ++ header.write { header.zero with fin := true, opcode := opPong, length := h.length }) ++ rest.take h.length }) ∧
    (h.length > 65536 →
      Conn.NextFrame c = (Except.error WsErr.giganticPing, Conn.ForceClose { c with inp := rest, out := c.out ++ header.write { header.zero with fin := true, opcode := opPong, length := h.length } }) ∧
      (Conn.NextFrame c).2.closed = true ∧ (Conn.NextFrame c).2.connClosed = true) := by
  have hnf : Conn.NextFrame c = c.nextFrameGo := by
    unfold Conn.NextFrame
    rw [if_neg hg]
  have hs16 : (1 <<< 16 : Nat) = 65536 := by norm_num [Nat.shiftLeft_eq]
  have hbody : Conn.nextFrameGo c =
      (match hsp : Conn.sendPong h { c with inp := rest } with
       | (Except.error e, c1) => (Except.error e, c1)
       | (Except.ok _, c1) => Conn.nextFrameGo c1) := by
    rw [Conn.nextFrameGo]
    split
    · next heq =>
      rw [hh] at heq
      exact absurd heq (by simp)
    · next h' rest' heq =>
      rw [hh] at heq
      injection heq with h2
      rw [Prod.mk.injEq] at h2
      obtain ⟨hh1, hh2⟩ := h2
      subst hh1
      subst hh2
      rw [if_neg (show ¬ h.opcode = opText by rw [hop]; decide),
        if_neg (show ¬ h.opcode = opBinary by rw [hop]; decide),
        if_neg (show ¬ h.opcode = opPong by rw [hop]; decide),
        if_neg (show ¬ h.opcode = opContinue by rw [hop]; decide),
        if_pos (show h.opcode = opPing from hop)]
  constructor
  · intro hle hrl
    have hng : ¬ (h.length > 1 <<< 16) := by rw [hs16]; omega
    have hsend : Conn.sendPong h { c with inp := rest } =
        (Except.ok (), { c with inp := rest.drop h.length, out := (c.out ++ header.write { header.zero with fin := true, opcode := opPong, length := h.length }) ++ rest.take h.length }) := by
      simp [Conn.sendPong, bwrite, bflush, hw, hng, hrl, hle]
    rw [hnf, hbody]
    split
    · next e c1 heq =>
      rw [hsend] at heq
      exact absurd heq (by simp)
    · next u c1 heq =>
      rw [hsend] at heq
      injection heq with h2 h3
      rw [← h3]
  · intro hgt
    have hg2 : h.length > 1 <<< 16 := by rw [hs16]; omega
    have hsend : Conn.sendPong h { c with inp := rest } =
        (Except.error WsErr.giganticPing, Conn.ForceClose { c with inp := rest, out := c.out ++ header.write { header.zero with fin := true, opcode := opPong, length := h.length } }) := by
      simp only [Conn.sendPong, bwrite, hw, Bool.false_eq_true, if_false]
      rw [if_pos hg2]
    have hmain : Conn.NextFrame c = (Except.error WsErr.giganticPing,
        Conn.ForceClose { c with inp := rest, out := c.out ++ header.write { header.zero with fin := true, opcode := opPong, length := h.length } }) := by
      rw [hnf, hbody]
      split
      · next e c1 heq =>
        rw [hsend] at heq
        injection heq with h2 h3
        injection h2 with he
        subst he
        rw [← h3]
      · next u c1 heq =>
        rw [hsend] at heq
        exact absurd heq (by simp)
    refine ⟨hmain, ?_, ?_⟩
    · rw [hmain]
      simp [Conn.ForceClose, Conn.forceClose, tryClose]
    · rw [hmain]
      simp [Conn.ForceClose, Conn.forceClose, tryClose]

/-- Claim C8 witness: a 3-byte ping is echoed as a pong with the same
payload before the next frame is read; a ping declaring 70000 bytes
force-closes. -/
theorem nextFrame_ping_spec_witness :
    Conn.NextFrame { conn0 with inp := [137, 3, 112, 105, 110, 129, 0] } =
      Conn.nextFrameGo { conn0 with inp := [129, 0], out := [138, 3, 112, 105, 110] } ∧
    (Conn.NextFrame { conn0 with inp := [137, 127, 0, 0, 0, 0, 0, 1, 17, 112] }).1 =
      Except.error WsErr.giganticPing ∧
    (Conn.NextFrame { conn0 with inp := [137, 127, 0, 0, 0, 0, 0, 1, 17, 112] }).2.connClosed =
      true := by
  refine ⟨?_, ?_, ?_⟩
  · have hh : readHeader ({ conn0 with inp := [137, 3, 112, 105, 110, 129, 0] } : Conn).inp =
        some ({ header.zero with fin := true, opcode := opPing, length := 3 },
          [112, 105, 110, 129, 0]) := by
      decide
    have h := (nextFrame_ping_spec { conn0 with inp := [137, 3, 112, 105, 110, 129, 0] }
        { header.zero with fin := true, opcode := opPing, length := 3 } [112, 105, 110, 129, 0]
        (by decide) hh (by decide) (by decide)).1 (by decide) (by decide)
    rw [h]
    congr 1 <;> decide
  · have hh : readHeader ({ conn0 with inp := [137, 127, 0, 0, 0, 0, 0, 1, 17, 112] } : Conn).inp =
        some ({ header.zero with fin := true, opcode := opPing, length := 70000 }, []) := by
      decide
    have h := ((nextFrame_ping_spec { conn0 with inp := [137, 127, 0, 0, 0, 0, 0, 1, 17, 112] }
        { header.zero with fin := true, opcode := opPing, length := 70000 } []
        (by decide) hh (by decide) (by decide)).2 (by decide)).1
    rw [h]
  · have hh : readHeader ({ conn0 with inp := [137, 127, 0, 0, 0, 0, 0, 1, 17, 112] } : Conn).inp =
        some ({ header.zero with fin := true, opcode := opPing, length := 70000 }, []) := by
      decide
    exact ((nextFrame_ping_spec { conn0 with inp := [137, 127, 0, 0, 0, 0, 0, 1, 17, 112] }
        { header.zero with fin := true, opcode := opPing, length := 70000 } []
        (by decide) hh (by decide) (by decide)).2 (by decide)).2.2

/-- Conditional unfolding of the close branch of the `NextFrame` loop. -/
theorem nextFrameGo_close_step {c : Conn} {h : header} {rest : List Nat}
    (hh : readHeader c.inp = some (h, rest)) (hop : h.opcode = opClose) :
    Conn.nextFrameGo c =
      (match Conn.respClose h { c with inp := rest } with
       | (Except.error e, c1) => (Except.error e, c1)
       | (Except.ok _, c1) =>
         match (c1.ForceClose).closeReason with
         | some raw => (Except.error (WsErr.closedByPeer raw), c1.ForceClose)
         | none => (Except.error WsErr.eofErr, c1.ForceClose)) := by
  rw [Conn.nextFrameGo]
  split
  · next heq =>
    rw [hh] at heq
    exact absurd heq (by simp)
  · next h' rest' heq =>
    rw [hh] at heq
    injection heq with h2
    rw [Prod.mk.injEq] at h2
    obtain ⟨hh1, hh2⟩ := h2
    subst hh1
    subst hh2
    rw [if_neg (show ¬ h.opcode = opText by rw [hop]; decide),
      if_neg (show ¬ h.opcode = opBinary by rw [hop]; decide),
      if_neg (show ¬ h.opcode = opPong by rw [hop]; decide),
      if_neg (show ¬ h.opcode = opContinue by rw [hop]; decide),
      if_neg (show ¬ h.opcode = opPing by rw [hop]; decide),
      if_pos (show h.opcode = opClose from hop)]

/-- The state after a local `Close(ctx, 1000, "bye")` on a fresh connection,
with the peer's close frame (code 1000, no reason) arriving next. -/
def connC2 : Conn :=
  { (Conn.Close 1000 [98, 121, 101] conn0).2 with inp := [136, 2, 3, 232] }

/-- Claim C2 evaluated on the code: after `Close` has emitted and flushed its
close frame, `closeSent` is still false (no statement ever assigns it), so
the peer's close frame arriving in `NextFrame` is echoed back (close header
`[136, 2]` plus the teed payload `[3, 232]` appear on the output), the
payload is recorded as the peer close reason, and `NextFrame` returns the
closed-by-peer error rather than `io.EOF` — contradicting the claim, which
(with the spec and `NextFrame`'s own documentation) expects `close_sent` to
be true, the payload discarded, and `io.EOF` returned. -/
theorem close_then_peer_close_eval :
    (Conn.Close 1000 [98, 121, 101] conn0).2.closeSent = false ∧
    (Conn.NextFrame connC2).1 = Except.error (WsErr.closedByPeer [3, 232]) ∧
    ¬ ((Conn.NextFrame connC2).1 = Except.error WsErr.eofErr) ∧
    (Conn.NextFrame connC2).2.out = connC2.out ++ [136, 2, 3, 232] ∧
    (Conn.NextFrame connC2).2.closeReason = some [3, 232] := by
  have hh : readHeader connC2.inp =
      some ({ header.zero with fin := true, opcode := opClose, length := 2 }, [3, 232]) := by
    decide
  have hstep : Conn.NextFrame connC2 = Conn.nextFrameGo connC2 := by
    unfold Conn.NextFrame
    rw [if_neg (by decide)]
  have hbody := nextFrameGo_close_step hh (by decide)
  rw [hstep, hbody]
  refine ⟨by decide, ?_, ?_, ?_, ?_⟩ <;> decide

/-- Conditional unfolding of the data branch of `Read`: with a non-exhausted
cursor and enough buffered input, `min n readLength` bytes are taken and,
when the current fragment is masked, XORed against `maskKey[i%4]` where `i`
is the index within this call's buffer. -/
theorem read_data_step (n : Nat) (c : Conn) (hpos : ¬ c.readLength = 0)
    (hlen : min n c.readLength ≤ c.inp.length) :
    Conn.Read n c =
      (Except.ok (if c.readFrame.mask then (c.inp.take (min n c.readLength)).mapIdx (fun i v => v ^^^ c.readFrame.maskKey.getD (i % 4) 0) else c.inp.take (min n c.readLength)),
        { c with inp := c.inp.drop (min n c.readLength), readLength := c.readLength - min n c.readLength }) := by
  rw [Conn.Read]
  rw [if_neg (by simp [hpos]), if_neg hpos]
  simp only
  rw [if_pos hlen]

/-- The header of the masked fragment of the C3 scenario: binary, final,
3 payload bytes, mask key 1 2 3 4. -/
def hdrC3 : header :=
  { header.zero with fin := true, opcode := opBinary, mask := true, length := 3, maskKey := [1, 2, 3, 4] }

/-- The C3 scenario state: the masked fragment's 3 zero payload bytes are
buffered and the receive cursor points at the fragment. -/
def connC3 : Conn :=
  { conn0 with inp := [0, 0, 0], readLength := 3, notFirstRead := true, readFrame := hdrC3 }

/-- Claim C3 evaluated on the code: reading the masked 3-byte fragment in a
2-byte `Read` followed by a 1-byte `Read` returns `[0^^^key[0], 0^^^key[1]]`
then `[0^^^key[0]]` — the mask index restarts at zero for the second call's
buffer, so the byte at fragment offset 2 is XORed with `maskKey[0] = 1`
rather than the `maskKey[2 mod 4] = 3` the claim (and RFC 6455 masking)
requires. -/
theorem read_mask_restart_eval :
    (Conn.Read 2 connC3).1 = Except.ok [1, 2] ∧
    (Conn.Read 1 (Conn.Read 2 connC3).2).1 = Except.ok [1] ∧
    (0 : Nat) ^^^ connC3.readFrame.maskKey.getD (2 % 4) 0 = 3 ∧
    ¬ ((Except.ok [1] : Except WsErr (List Nat)) = Except.ok [3]) := by
  have h1 := read_data_step 2 connC3 (by decide) (by decide)
  have h2 := read_data_step 1 (Conn.Read 2 connC3).2 (by rw [h1]; decide) (by rw [h1]; decide)
  refine ⟨?_, ?_, ?_, ?_⟩
  · rw [h1]
    decide
  · rw [h2, h1]
    decide
  · decide
  · decide
